import Mathlib

/-
Shallow embedding of the TodoList contract (src/contracts/TodoList.sol).

Modelling conventions:
* An address is a `Nat`; `msg.sender` becomes an explicit `caller`
  parameter, and `block.timestamp` an explicit `now : Nat` argument to the
  mutating operations that read it.
* Solidity `bytes(s).length` on a UTF-8 string is `String.utf8ByteSize`.
* The contract storage (two mappings) is a structure of total functions
  from addresses; `revert` is modelled by `Except`: an `error` result means
  the call reverted and on-chain state is unchanged (`step` keeps the
  pre-state on any error).
* `taskCount[msg.sender]--` uses Solidity 0.8 checked arithmetic: on a
  zero count it reverts with an underflow panic, modelled by `Err.Panic`.
  The corresponding overflow check on `taskCount++` is not modelled: it
  would only fire after 2^256 - 1 successful creations by one owner,
  which is unreachable within EVM gas limits.
-/

namespace TodoListC

/-- Task struct of the contract: id, content, completed, createdAt, completedAt. -/
structure Task where
  id : Nat
  content : String
  completed : Bool
  createdAt : Nat
  completedAt : Nat
  deriving Repr, DecidableEq, Inhabited

/-- Byte length of a string, as Solidity computes `bytes(s).length`. -/
def byteLen (s : String) : Nat := s.utf8ByteSize

/-- Default task value, used only as the `getD` fallback under an
in-bounds guard (so it is never actually returned). -/
def defaultTask : Task := { id := 0, content := "", completed := false, createdAt := 0, completedAt := 0 }

/-- Contract storage: `mapping(address => Task[]) userTasks` and
`mapping(address => uint256) taskCount`. -/
structure TodoState where
  userTasks : Nat → List Task
  taskCount : Nat → Nat

/-- Revert causes: the three `require` messages of the contract plus the
checked-arithmetic underflow panic on `taskCount--`. `InvalidContent`
covers both content-length requires of `nonEmptyContent`. -/
inductive Err where
  | TaskNotFound
  | InvalidContent
  | AlreadyDeleted
  | Panic
  deriving Repr, DecidableEq

/-- Pointwise update of a mapping at one key. -/
def upd {α : Type} (f : Nat → α) (k : Nat) (v : α) : Nat → α :=
  fun x => if x = k then v else f x

/-- createTask: `nonEmptyContent` modifier, then push a task with
`id = userTasks[msg.sender].length`, `completed = false`,
`createdAt = block.timestamp`, `completedAt = 0`, and `taskCount++`. -/
def createTask (s : TodoState) (caller : Nat) (content : String) (now : Nat) :
    Except Err TodoState :=
  if byteLen content = 0 then .error .InvalidContent
  else if 500 < byteLen content then .error .InvalidContent
  else
    let tasks := s.userTasks caller
    let taskId := tasks.length
    .ok { userTasks := upd s.userTasks caller
            (tasks ++ [{ id := taskId, content := content, completed := false,
                         createdAt := now, completedAt := 0 }]),
          taskCount := upd s.taskCount caller (s.taskCount caller + 1) }

/-- Body of toggleTask on the addressed slot: flip `completed`; set
`completedAt = block.timestamp` when it becomes true, else reset it to 0. -/
def toggleResult (t : Task) (now : Nat) : Task :=
  if !t.completed then { t with completed := true, completedAt := now }
  else { t with completed := false, completedAt := 0 }

/-- toggleTask: `validTaskId` modifier, then rewrite the slot with
`toggleResult`. -/
def toggleTask (s : TodoState) (caller taskId now : Nat) : Except Err TodoState :=
  let tasks := s.userTasks caller
  if taskId < tasks.length then
    let task2 := toggleResult (tasks.getD taskId defaultTask) now
    .ok { s with userTasks := upd s.userTasks caller (tasks.set taskId task2) }
  else .error .TaskNotFound

/-- updateTask: `validTaskId` then `nonEmptyContent` (modifier order of the
source), then overwrite only the `content` field of the slot. -/
def updateTask (s : TodoState) (caller taskId : Nat) (newContent : String) :
    Except Err TodoState :=
  let tasks := s.userTasks caller
  if taskId < tasks.length then
    if byteLen newContent = 0 then .error .InvalidContent
    else if 500 < byteLen newContent then .error .InvalidContent
    else
      let task := tasks.getD taskId defaultTask
      let tasks2 := tasks.set taskId { task with content := newContent }
      .ok { s with userTasks := upd s.userTasks caller tasks2 }
  else .error .TaskNotFound

/-- deleteTask: `validTaskId`, then `require(bytes(task.content).length > 0)`,
then set `content = ""`, `completed = true` and `taskCount--` (checked:
reverts with a panic when the count is already 0). -/
def deleteTask (s : TodoState) (caller taskId : Nat) : Except Err TodoState :=
  let tasks := s.userTasks caller
  if taskId < tasks.length then
    let task := tasks.getD taskId defaultTask
    if 0 < byteLen task.content then
      if s.taskCount caller = 0 then .error .Panic
      else
        .ok { userTasks := upd s.userTasks caller
                (tasks.set taskId { task with content := "", completed := true }),
              taskCount := upd s.taskCount caller (s.taskCount caller - 1) }
    else .error .AlreadyDeleted
  else .error .TaskNotFound

/-- getTask: `validTaskId`, then return the raw slot (deleted or not). -/
def getTask (s : TodoState) (caller taskId : Nat) : Except Err Task :=
  let tasks := s.userTasks caller
  if taskId < tasks.length then .ok (tasks.getD taskId defaultTask)
  else .error .TaskNotFound

/-- getAllTasks: the caller's full raw task array. -/
def getAllTasks (s : TodoState) (caller : Nat) : List Task :=
  s.userTasks caller

/-- getActiveTaskCount: the maintained `taskCount[msg.sender]`. -/
def getActiveTaskCount (s : TodoState) (caller : Nat) : Nat :=
  s.taskCount caller

/-- Filter condition of `getCompletedTasks`:
`allTasks[i].completed && bytes(allTasks[i].content).length > 0`. -/
def isCompletedLive (t : Task) : Bool :=
  t.completed && !(byteLen t.content = 0 : Bool)

/-- Filter condition of `getPendingTasks`:
`!allTasks[i].completed && bytes(allTasks[i].content).length > 0`. -/
def isPendingLive (t : Task) : Bool :=
  !t.completed && !(byteLen t.content = 0 : Bool)

/-- getCompletedTasks: the source's count-then-fill loop pair, whose fill
loop appends each matching task in index order; embedded as that fold. -/
def getCompletedTasks (s : TodoState) (caller : Nat) : List Task :=
  (s.userTasks caller).foldl
    (fun acc t => if isCompletedLive t then acc ++ [t] else acc) []

/-- getPendingTasks: same loop shape with the negated completion test. -/
def getPendingTasks (s : TodoState) (caller : Nat) : List Task :=
  (s.userTasks caller).foldl
    (fun acc t => if isPendingLive t then acc ++ [t] else acc) []

/-- getTaskCountForUser: cross-identity read of `taskCount[_user]`; the
caller is irrelevant to the result (any identity may invoke it). -/
def getTaskCountForUser (s : TodoState) (_caller : Nat) (user : Nat) : Nat :=
  s.taskCount user

/-- Calls a client can make to the contract, with the `block.timestamp`
each mutating call would observe. -/
inductive Op where
  | create (content : String) (now : Nat)
  | toggle (taskId now : Nat)
  | update (taskId : Nat) (newContent : String)
  | delete (taskId : Nat)
  deriving Repr, DecidableEq

/-- Dispatch one call from `caller`. -/
def applyOp (s : TodoState) (caller : Nat) : Op → Except Err TodoState
  | .create c n => createTask s caller c n
  | .toggle i n => toggleTask s caller i n
  | .update i c => updateTask s caller i c
  | .delete i => deleteTask s caller i

/-- One transaction: a reverted call leaves storage unchanged. -/
def step (s : TodoState) (m : Nat × Op) : TodoState :=
  match applyOp s m.1 m.2 with
  | .ok s2 => s2
  | .error _ => s

/-- Run a finite sequence of transactions. -/
def run (s : TodoState) (ops : List (Nat × Op)) : TodoState :=
  ops.foldl step s

/-- Freshly deployed contract: both mappings everywhere zero/empty. -/
def initState : TodoState :=
  { userTasks := fun _ => [], taskCount := fun _ => 0 }

/-- Guard of one call against resurrection: an `update` must target an
out-of-range index (so it reverts) or a slot whose content is non-empty. -/
def updGuard (s : TodoState) (c : Nat) : Op → Bool
  | .update taskId _ =>
    !(taskId < (s.userTasks c).length : Bool)
      || !(byteLen ((s.userTasks c).getD taskId defaultTask).content = 0 : Bool)
  | _ => true

/-- Checks that a trace never applies `updateTask` to an index-valid slot
whose content is empty, i.e. never resurrects a soft-deleted task. -/
def noResurrect : TodoState → List (Nat × Op) → Bool
  | _, [] => true
  | s, m :: rest => updGuard s m.1 m.2 && noResurrect (step s m) rest

/-- Whether one call is an `updateTask` by owner `a` addressed to index
`j` of a's own sequence (only such a call can ever rewrite that slot's
content). -/
def updatesSlot (a j : Nat) (m : Nat × Op) : Bool :=
  match m.2 with
  | .update taskId _ => m.1 == a && taskId == j
  | _ => false

/-- Checks that a trace contains no `updateTask` call addressed to slot
`j` of owner `a` — the slot-local no-resurrection condition. -/
def noUpdateOf (a j : Nat) (ops : List (Nat × Op)) : Bool :=
  ops.all (fun m => !updatesSlot a j m)

/-- Positivity of the timestamp a `toggle` call carries
(`block.timestamp` is positive on any post-genesis chain). -/
def toggleTimePos : Op → Bool
  | .toggle _ now => !(now = 0 : Bool)
  | _ => true

/-- Checks that every `toggle` in a trace carries a positive timestamp. -/
def posToggleTimes (ops : List (Nat × Op)) : Bool :=
  ops.all (fun m => toggleTimePos m.2)

/-- Number of live (non-empty-content) tasks in a task list. -/
def liveCount (l : List Task) : Nat :=
  l.countP (fun t => !(byteLen t.content = 0 : Bool))

/-- Id/index agreement: every stored task's `id` equals its position in
its owner's array. -/
def IdInv (s : TodoState) : Prop :=
  ∀ a i (h : i < (s.userTasks a).length), ((s.userTasks a)[i]).id = i

/-- Count accounting: the maintained count equals the number of live tasks. -/
def CountInv (s : TodoState) : Prop :=
  ∀ a, s.taskCount a = liveCount (s.userTasks a)

/-- Completion-timestamp invariant on live tasks. -/
def CompletedAtInv (s : TodoState) : Prop :=
  ∀ a, ∀ t ∈ s.userTasks a, byteLen t.content ≠ 0 →
    (0 < t.completedAt ↔ t.completed = true)

/-- Soft-deleted slot: index `j` is valid for owner `a` and its content is
the empty string. -/
def DeadAt (s : TodoState) (a j : Nat) : Prop :=
  ∃ h : j < (s.userTasks a).length, byteLen ((s.userTasks a)[j]).content = 0

/-- Result of a call, forgetting the new state. -/
def succeeds (r : Except Err TodoState) : Bool :=
  match r with
  | .ok _ => true
  | .error _ => false

/-- One owner (address 0) creates a single task "a" at time 5. -/
def oneTaskOps : List (Nat × Op) := [(0, .create "a" 5)]

/-- State after `oneTaskOps`. -/
def oneTaskState : TodoState := run initState oneTaskOps

/-- Owner 0 creates a task and soft-deletes it. -/
def delOps : List (Nat × Op) := [(0, .create "a" 1), (0, .delete 0)]

/-- State after `delOps`: one soft-deleted slot, live count 0. -/
def delState : TodoState := run initState delOps

/-- Owner 0 creates a task, soft-deletes it, then resurrects the slot by
updating its content. -/
def resurrectOps : List (Nat × Op) :=
  [(0, .create "a" 1), (0, .delete 0), (0, .update 0 "b")]

/-- State after `resurrectOps`: slot 0 is live again ("b", completed,
completedAt 0) while taskCount is still 0. -/
def resurrectState : TodoState := run initState resurrectOps

/- ===== Basic lemmas about the embedding ===== -/

theorem upd_self {α : Type} (f : Nat → α) (k : Nat) (v : α) : upd f k v k = v := by
  simp [upd]

theorem upd_ne {α : Type} (f : Nat → α) (k : Nat) (v : α) {x : Nat} (h : x ≠ k) :
    upd f k v x = f x := by
  simp [upd, h]

theorem createTask_ok (s : TodoState) (c : Nat) (content : String) (now : Nat)
    (h1 : byteLen content ≠ 0) (h2 : ¬ 500 < byteLen content) :
    createTask s c content now =
      .ok { userTasks := upd s.userTasks c (s.userTasks c ++
              [{ id := (s.userTasks c).length, content := content, completed := false,
                 createdAt := now, completedAt := 0 }]),
            taskCount := upd s.taskCount c (s.taskCount c + 1) } := by
  simp [createTask, h1, h2]

theorem createTask_err (s : TodoState) (c : Nat) (content : String) (now : Nat)
    (h : byteLen content = 0 ∨ 500 < byteLen content) :
    createTask s c content now = .error .InvalidContent := by
  rcases h with h | h
  · simp [createTask, h]
  · have h1 : byteLen content ≠ 0 := by omega
    simp [createTask, h1, h]

theorem toggleTask_ok (s : TodoState) (c taskId now : Nat)
    (h : taskId < (s.userTasks c).length) :
    toggleTask s c taskId now =
      .ok { s with userTasks := upd s.userTasks c ((s.userTasks c).set taskId
              (toggleResult ((s.userTasks c).getD taskId defaultTask) now)) } := by
  simp [toggleTask, h]

theorem toggleTask_nf (s : TodoState) (c taskId now : Nat)
    (h : ¬ taskId < (s.userTasks c).length) :
    toggleTask s c taskId now = .error .TaskNotFound := by
  simp [toggleTask, h]

theorem updateTask_ok (s : TodoState) (c taskId : Nat) (newContent : String)
    (h : taskId < (s.userTasks c).length)
    (h1 : byteLen newContent ≠ 0) (h2 : ¬ 500 < byteLen newContent) :
    updateTask s c taskId newContent =
      .ok { s with userTasks := upd s.userTasks c ((s.userTasks c).set taskId
              { (s.userTasks c).getD taskId defaultTask with content := newContent }) } := by
  simp [updateTask, h, h1, h2]

theorem updateTask_nf (s : TodoState) (c taskId : Nat) (newContent : String)
    (h : ¬ taskId < (s.userTasks c).length) :
    updateTask s c taskId newContent = .error .TaskNotFound := by
  simp [updateTask, h]

theorem updateTask_invalid (s : TodoState) (c taskId : Nat) (newContent : String)
    (h : taskId < (s.userTasks c).length)
    (hc : byteLen newContent = 0 ∨ 500 < byteLen newContent) :
    updateTask s c taskId newContent = .error .InvalidContent := by
  rcases hc with hc | hc
  · simp [updateTask, h, hc]
  · have h1 : byteLen newContent ≠ 0 := by omega
    simp [updateTask, h, h1, hc]

theorem deleteTask_ok (s : TodoState) (c taskId : Nat)
    (h : taskId < (s.userTasks c).length)
    (hlive : byteLen ((s.userTasks c).getD taskId defaultTask).content ≠ 0)
    (hcnt : s.taskCount c ≠ 0) :
    deleteTask s c taskId =
      .ok { userTasks := upd s.userTasks c ((s.userTasks c).set taskId
              { (s.userTasks c).getD taskId defaultTask with content := "", completed := true }),
            taskCount := upd s.taskCount c (s.taskCount c - 1) } := by
  have hg : (s.userTasks c).getD taskId defaultTask = (s.userTasks c)[taskId] :=
    List.getD_eq_getElem _ _ h
  rw [hg] at hlive
  have hlive2 : 0 < byteLen ((s.userTasks c)[taskId]).content := by omega
  simp [deleteTask, h, hlive2, hcnt]

theorem deleteTask_already (s : TodoState) (c taskId : Nat)
    (h : taskId < (s.userTasks c).length)
    (hdead : byteLen ((s.userTasks c).getD taskId defaultTask).content = 0) :
    deleteTask s c taskId = .error .AlreadyDeleted := by
  have hg : (s.userTasks c).getD taskId defaultTask = (s.userTasks c)[taskId] :=
    List.getD_eq_getElem _ _ h
  rw [hg] at hdead
  simp [deleteTask, h, hdead]

theorem deleteTask_panic (s : TodoState) (c taskId : Nat)
    (h : taskId < (s.userTasks c).length)
    (hlive : byteLen ((s.userTasks c).getD taskId defaultTask).content ≠ 0)
    (hcnt : s.taskCount c = 0) :
    deleteTask s c taskId = .error .Panic := by
  have hg : (s.userTasks c).getD taskId defaultTask = (s.userTasks c)[taskId] :=
    List.getD_eq_getElem _ _ h
  rw [hg] at hlive
  have hlive2 : 0 < byteLen ((s.userTasks c)[taskId]).content := by omega
  simp [deleteTask, h, hlive2, hcnt]

theorem deleteTask_nf (s : TodoState) (c taskId : Nat)
    (h : ¬ taskId < (s.userTasks c).length) :
    deleteTask s c taskId = .error .TaskNotFound := by
  simp [deleteTask, h]

theorem getTask_ok (s : TodoState) (c taskId : Nat)
    (h : taskId < (s.userTasks c).length) :
    getTask s c taskId = .ok ((s.userTasks c).getD taskId defaultTask) := by
  simp [getTask, h]

theorem getTask_nf (s : TodoState) (c taskId : Nat)
    (h : ¬ taskId < (s.userTasks c).length) :
    getTask s c taskId = .error .TaskNotFound := by
  simp [getTask, h]

theorem step_ok {s s2 : TodoState} {m : Nat × Op} (h : applyOp s m.1 m.2 = .ok s2) :
    step s m = s2 := by
  simp [step, h]

theorem step_err {s : TodoState} {m : Nat × Op} {e : Err} (h : applyOp s m.1 m.2 = .error e) :
    step s m = s := by
  simp [step, h]

theorem run_nil (s : TodoState) : run s [] = s := rfl

theorem run_cons (s : TodoState) (m : Nat × Op) (ops : List (Nat × Op)) :
    run s (m :: ops) = run (step s m) ops := rfl

theorem noResurrect_cons (s : TodoState) (m : Nat × Op) (ops : List (Nat × Op)) :
    noResurrect s (m :: ops) = (updGuard s m.1 m.2 && noResurrect (step s m) ops) := rfl

theorem toggleResult_id (t : Task) (now : Nat) : (toggleResult t now).id = t.id := by
  cases h : t.completed <;> simp [toggleResult, h]

theorem toggleResult_content (t : Task) (now : Nat) :
    (toggleResult t now).content = t.content := by
  cases h : t.completed <;> simp [toggleResult, h]

theorem toggleResult_createdAt (t : Task) (now : Nat) :
    (toggleResult t now).createdAt = t.createdAt := by
  cases h : t.completed <;> simp [toggleResult, h]

theorem toggleResult_completed (t : Task) (now : Nat) :
    (toggleResult t now).completed = !t.completed := by
  cases h : t.completed <;> simp [toggleResult, h]

theorem toggleResult_completedAt (t : Task) (now : Nat) :
    (toggleResult t now).completedAt = if t.completed then 0 else now := by
  cases h : t.completed <;> simp [toggleResult, h]

/- ===== List-level helpers ===== -/

theorem foldl_filter (p : Task → Bool) (l : List Task) (acc : List Task) :
    l.foldl (fun acc2 t => if p t then acc2 ++ [t] else acc2) acc = acc ++ l.filter p := by
  induction l generalizing acc with
  | nil => simp
  | cons t l2 ih => cases hp : p t <;> simp [hp, ih, List.filter_cons]

theorem getCompletedTasks_eq_filter (s : TodoState) (a : Nat) :
    getCompletedTasks s a = (s.userTasks a).filter isCompletedLive := by
  simpa using foldl_filter isCompletedLive (s.userTasks a) []

theorem getPendingTasks_eq_filter (s : TodoState) (a : Nat) :
    getPendingTasks s a = (s.userTasks a).filter isPendingLive := by
  simpa using foldl_filter isPendingLive (s.userTasks a) []

theorem liveCount_append_live (l : List Task) (t : Task) (h : byteLen t.content ≠ 0) :
    liveCount (l ++ [t]) = liveCount l + 1 := by
  simp [liveCount, List.countP_append, h]

theorem liveCount_pos (l : List Task) (j : Nat) (hj : j < l.length)
    (hlive : byteLen (l[j]).content ≠ 0) : 0 < liveCount l := by
  refine List.countP_pos_iff.mpr ⟨l[j], List.getElem_mem hj, ?_⟩
  simp [hlive]

theorem liveCount_set_same (l : List Task) (j : Nat) (t : Task) (hj : j < l.length)
    (hp : (byteLen t.content = 0) ↔ (byteLen (l[j]).content = 0)) :
    liveCount (l.set j t) = liveCount l := by
  have hpos := liveCount_pos l j hj
  unfold liveCount at hpos ⊢
  rw [List.countP_set _ _ _ _ hj]
  by_cases hb : byteLen (l[j]).content = 0
  · simp [hb, hp.mpr hb]
  · have hb2 : byteLen t.content ≠ 0 := fun hc => hb (hp.mp hc)
    have hpos2 := hpos hb
    simp [hb, hb2]
    omega

theorem liveCount_set_kill (l : List Task) (j : Nat) (t : Task) (hj : j < l.length)
    (hlive : byteLen (l[j]).content ≠ 0) (hdead : byteLen t.content = 0) :
    liveCount (l.set j t) = liveCount l - 1 := by
  rw [liveCount, List.countP_set _ _ _ _ hj]
  simp [hlive, hdead, liveCount]

theorem ids_append (l : List Task) (t : Task)
    (hl : ∀ i (hi : i < l.length), (l[i]).id = i) (ht : t.id = l.length) :
    ∀ i (hi : i < (l ++ [t]).length), ((l ++ [t])[i]).id = i := by
  intro i hi
  rw [List.getElem_append]
  split
  · next hlt => exact hl i hlt
  · next hge =>
    have hlen : i < l.length + 1 := by simpa using hi
    have hieq : i = l.length := by omega
    subst hieq
    simpa using ht

theorem ids_set (l : List Task) (j : Nat) (t : Task) (hj : j < l.length) (ht : t.id = j)
    (hl : ∀ i (hi : i < l.length), (l[i]).id = i) :
    ∀ i (hi : i < (l.set j t).length), ((l.set j t)[i]).id = i := by
  intro i hi
  rw [List.length_set] at hi
  rw [List.getElem_set]
  split
  · next heq => rw [ht, heq]
  · next hne => exact hl i hi

theorem posToggleTimes_cons (m : Nat × Op) (ops : List (Nat × Op)) :
    posToggleTimes (m :: ops) = (toggleTimePos m.2 && posToggleTimes ops) := by
  simp [posToggleTimes]

/- ===== Invariant preservation ===== -/

theorem idInv_step (s : TodoState) (m : Nat × Op) (h : IdInv s) : IdInv (step s m) := by
  obtain ⟨c, op⟩ := m
  cases op with
  | create content now =>
    by_cases h1 : byteLen content = 0
    · simpa [step, applyOp, createTask_err s c content now (Or.inl h1)] using h
    · by_cases h2 : 500 < byteLen content
      · simpa [step, applyOp, createTask_err s c content now (Or.inr h2)] using h
      · rw [step_ok (m := (c, Op.create content now)) (createTask_ok s c content now h1 h2)]
        intro a i hi
        dsimp only at hi ⊢
        by_cases hac : a = c
        · subst hac
          simp only [upd_self] at hi ⊢
          exact ids_append (s.userTasks a) _ (h a) rfl i hi
        · simp only [upd_ne _ _ _ hac] at hi ⊢
          exact h a i hi
  | toggle taskId now =>
    by_cases hok : taskId < (s.userTasks c).length
    · rw [step_ok (m := (c, Op.toggle taskId now)) (toggleTask_ok s c taskId now hok)]
      intro a i hi
      dsimp only at hi ⊢
      by_cases hac : a = c
      · subst hac
        simp only [upd_self] at hi ⊢
        refine ids_set (s.userTasks a) taskId _ hok ?_ (h a) i hi
        rw [toggleResult_id, List.getD_eq_getElem _ _ hok]
        exact h a taskId hok
      · simp only [upd_ne _ _ _ hac] at hi ⊢
        exact h a i hi
    · simpa [step, applyOp, toggleTask_nf s c taskId now hok] using h
  | update taskId newContent =>
    by_cases hok : taskId < (s.userTasks c).length
    · by_cases h1 : byteLen newContent = 0
      · simpa [step, applyOp, updateTask_invalid s c taskId newContent hok (Or.inl h1)] using h
      · by_cases h2 : 500 < byteLen newContent
        · simpa [step, applyOp, updateTask_invalid s c taskId newContent hok (Or.inr h2)] using h
        · rw [step_ok (m := (c, Op.update taskId newContent))
            (updateTask_ok s c taskId newContent hok h1 h2)]
          intro a i hi
          dsimp only at hi ⊢
          by_cases hac : a = c
          · subst hac
            simp only [upd_self] at hi ⊢
            refine ids_set (s.userTasks a) taskId _ hok ?_ (h a) i hi
            show ((s.userTasks a).getD taskId defaultTask).id = taskId
            rw [List.getD_eq_getElem _ _ hok]
            exact h a taskId hok
          · simp only [upd_ne _ _ _ hac] at hi ⊢
            exact h a i hi
    · simpa [step, applyOp, updateTask_nf s c taskId newContent hok] using h
  | delete taskId =>
    by_cases hok : taskId < (s.userTasks c).length
    · by_cases hlive : byteLen ((s.userTasks c).getD taskId defaultTask).content = 0
      · simpa [step, applyOp, deleteTask_already s c taskId hok hlive] using h
      · by_cases hcnt : s.taskCount c = 0
        · simpa [step, applyOp, deleteTask_panic s c taskId hok hlive hcnt] using h
        · rw [step_ok (m := (c, Op.delete taskId)) (deleteTask_ok s c taskId hok hlive hcnt)]
          intro a i hi
          dsimp only at hi ⊢
          by_cases hac : a = c
          · subst hac
            simp only [upd_self] at hi ⊢
            refine ids_set (s.userTasks a) taskId _ hok ?_ (h a) i hi
            show ((s.userTasks a).getD taskId defaultTask).id = taskId
            rw [List.getD_eq_getElem _ _ hok]
            exact h a taskId hok
          · simp only [upd_ne _ _ _ hac] at hi ⊢
            exact h a i hi
    · simpa [step, applyOp, deleteTask_nf s c taskId hok] using h

theorem idInv_run (ops : List (Nat × Op)) (s : TodoState) (h : IdInv s) :
    IdInv (run s ops) := by
  induction ops generalizing s with
  | nil => simpa [run_nil] using h
  | cons m rest ih =>
    rw [run_cons]
    exact ih _ (idInv_step s m h)

theorem idInv_init : IdInv initState := by
  intro a i hi
  simp [initState] at hi

theorem countInv_step (s : TodoState) (m : Nat × Op) (h : CountInv s)
    (hg : updGuard s m.1 m.2 = true) : CountInv (step s m) := by
  obtain ⟨c, op⟩ := m
  cases op with
  | create content now =>
    by_cases h1 : byteLen content = 0
    · simpa [step, applyOp, createTask_err s c content now (Or.inl h1)] using h
    · by_cases h2 : 500 < byteLen content
      · simpa [step, applyOp, createTask_err s c content now (Or.inr h2)] using h
      · rw [step_ok (m := (c, Op.create content now)) (createTask_ok s c content now h1 h2)]
        intro a
        dsimp only
        by_cases hac : a = c
        · subst hac
          simp only [upd_self]
          rw [liveCount_append_live _ _ h1, h a]
        · simp only [upd_ne _ _ _ hac]
          exact h a
  | toggle taskId now =>
    by_cases hok : taskId < (s.userTasks c).length
    · rw [step_ok (m := (c, Op.toggle taskId now)) (toggleTask_ok s c taskId now hok)]
      intro a
      dsimp only
      by_cases hac : a = c
      · subst hac
        simp only [upd_self]
        rw [h a]
        refine (liveCount_set_same _ taskId _ hok ?_).symm
        rw [toggleResult_content, List.getD_eq_getElem _ _ hok]
      · simp only [upd_ne _ _ _ hac]
        exact h a
    · simpa [step, applyOp, toggleTask_nf s c taskId now hok] using h
  | update taskId newContent =>
    by_cases hok : taskId < (s.userTasks c).length
    · by_cases h1 : byteLen newContent = 0
      · simpa [step, applyOp, updateTask_invalid s c taskId newContent hok (Or.inl h1)] using h
      · by_cases h2 : 500 < byteLen newContent
        · simpa [step, applyOp, updateTask_invalid s c taskId newContent hok (Or.inr h2)] using h
        · have hlive : byteLen ((s.userTasks c).getD taskId defaultTask).content ≠ 0 := by
            simp only [updGuard, Bool.or_eq_true, Bool.not_eq_eq_eq_not, Bool.not_true,
              decide_eq_false_iff_not] at hg
            rcases hg with hg | hg
            · exact absurd hok hg
            · exact hg
          rw [List.getD_eq_getElem _ _ hok] at hlive
          rw [step_ok (m := (c, Op.update taskId newContent))
            (updateTask_ok s c taskId newContent hok h1 h2)]
          intro a
          dsimp only
          by_cases hac : a = c
          · subst hac
            simp only [upd_self]
            rw [h a]
            refine (liveCount_set_same _ taskId _ hok ?_).symm
            simp [h1, hlive]
          · simp only [upd_ne _ _ _ hac]
            exact h a
    · simpa [step, applyOp, updateTask_nf s c taskId newContent hok] using h
  | delete taskId =>
    by_cases hok : taskId < (s.userTasks c).length
    · by_cases hdead : byteLen ((s.userTasks c).getD taskId defaultTask).content = 0
      · simpa [step, applyOp, deleteTask_already s c taskId hok hdead] using h
      · have hlive := hdead
        rw [List.getD_eq_getElem _ _ hok] at hlive
        have hpos : 0 < liveCount (s.userTasks c) := liveCount_pos _ taskId hok hlive
        have hcnt : s.taskCount c ≠ 0 := by rw [h c]; omega
        rw [step_ok (m := (c, Op.delete taskId)) (deleteTask_ok s c taskId hok hdead hcnt)]
        intro a
        dsimp only
        by_cases hac : a = c
        · subst hac
          simp only [upd_self]
          rw [h a, liveCount_set_kill _ taskId
            ({ (s.userTasks a).getD taskId defaultTask with content := "", completed := true })
            hok hlive rfl]
        · simp only [upd_ne _ _ _ hac]
          exact h a
    · simpa [step, applyOp, deleteTask_nf s c taskId hok] using h

theorem countInv_run (ops : List (Nat × Op)) (s : TodoState) (h : CountInv s)
    (hg : noResurrect s ops = true) : CountInv (run s ops) := by
  induction ops generalizing s with
  | nil => simpa [run_nil] using h
  | cons m rest ih =>
    rw [noResurrect_cons, Bool.and_eq_true] at hg
    rw [run_cons]
    exact ih _ (countInv_step s m h hg.1) hg.2

theorem countInv_init : CountInv initState := by
  intro a
  simp [initState, liveCount]

theorem completedAtInv_step (s : TodoState) (m : Nat × Op) (h : CompletedAtInv s)
    (hg : updGuard s m.1 m.2 = true) (ht : toggleTimePos m.2 = true) :
    CompletedAtInv (step s m) := by
  obtain ⟨c, op⟩ := m
  cases op with
  | create content now =>
    by_cases h1 : byteLen content = 0
    · simpa [step, applyOp, createTask_err s c content now (Or.inl h1)] using h
    · by_cases h2 : 500 < byteLen content
      · simpa [step, applyOp, createTask_err s c content now (Or.inr h2)] using h
      · rw [step_ok (m := (c, Op.create content now)) (createTask_ok s c content now h1 h2)]
        intro a t hmem hlive
        dsimp only at hmem
        by_cases hac : a = c
        · subst hac
          simp only [upd_self, List.mem_append, List.mem_singleton] at hmem
          rcases hmem with hmem | rfl
          · exact h a t hmem hlive
          · simp
        · simp only [upd_ne _ _ _ hac] at hmem
          exact h a t hmem hlive
  | toggle taskId now =>
    by_cases hok : taskId < (s.userTasks c).length
    · rw [step_ok (m := (c, Op.toggle taskId now)) (toggleTask_ok s c taskId now hok)]
      intro a t hmem hlive
      dsimp only at hmem
      by_cases hac : a = c
      · subst hac
        simp only [upd_self] at hmem
        rcases List.mem_or_eq_of_mem_set hmem with hmem | rfl
        · exact h a t hmem hlive
        · simp only [toggleTimePos, Bool.not_eq_eq_eq_not, Bool.not_true,
            decide_eq_false_iff_not] at ht
          rw [toggleResult_completedAt, toggleResult_completed]
          cases hc : ((s.userTasks a).getD taskId defaultTask).completed
          · simp [hc]
            omega
          · simp [hc]
      · simp only [upd_ne _ _ _ hac] at hmem
        exact h a t hmem hlive
    · simpa [step, applyOp, toggleTask_nf s c taskId now hok] using h
  | update taskId newContent =>
    by_cases hok : taskId < (s.userTasks c).length
    · by_cases h1 : byteLen newContent = 0
      · simpa [step, applyOp, updateTask_invalid s c taskId newContent hok (Or.inl h1)] using h
      · by_cases h2 : 500 < byteLen newContent
        · simpa [step, applyOp, updateTask_invalid s c taskId newContent hok (Or.inr h2)] using h
        · have hlive0 : byteLen ((s.userTasks c).getD taskId defaultTask).content ≠ 0 := by
            simp only [updGuard, Bool.or_eq_true, Bool.not_eq_eq_eq_not, Bool.not_true,
              decide_eq_false_iff_not] at hg
            rcases hg with hg | hg
            · exact absurd hok hg
            · exact hg
          rw [step_ok (m := (c, Op.update taskId newContent))
            (updateTask_ok s c taskId newContent hok h1 h2)]
          intro a t hmem hlive
          dsimp only at hmem
          by_cases hac : a = c
          · subst hac
            simp only [upd_self] at hmem
            rcases List.mem_or_eq_of_mem_set hmem with hmem | rfl
            · exact h a t hmem hlive
            · have hold : (s.userTasks a).getD taskId defaultTask ∈ s.userTasks a := by
                rw [List.getD_eq_getElem _ _ hok]
                exact List.getElem_mem hok
              have hiff := h a _ hold hlive0
              simpa using hiff
          · simp only [upd_ne _ _ _ hac] at hmem
            exact h a t hmem hlive
    · simpa [step, applyOp, updateTask_nf s c taskId newContent hok] using h
  | delete taskId =>
    by_cases hok : taskId < (s.userTasks c).length
    · by_cases hdead : byteLen ((s.userTasks c).getD taskId defaultTask).content = 0
      · simpa [step, applyOp, deleteTask_already s c taskId hok hdead] using h
      · by_cases hcnt : s.taskCount c = 0
        · simpa [step, applyOp, deleteTask_panic s c taskId hok hdead hcnt] using h
        · rw [step_ok (m := (c, Op.delete taskId)) (deleteTask_ok s c taskId hok hdead hcnt)]
          intro a t hmem hlive
          dsimp only at hmem
          by_cases hac : a = c
          · subst hac
            simp only [upd_self] at hmem
            rcases List.mem_or_eq_of_mem_set hmem with hmem | rfl
            · exact h a t hmem hlive
            · exact absurd rfl hlive
          · simp only [upd_ne _ _ _ hac] at hmem
            exact h a t hmem hlive
    · simpa [step, applyOp, deleteTask_nf s c taskId hok] using h

theorem completedAtInv_run (ops : List (Nat × Op)) (s : TodoState) (h : CompletedAtInv s)
    (hg : noResurrect s ops = true) (ht : posToggleTimes ops = true) :
    CompletedAtInv (run s ops) := by
  induction ops generalizing s with
  | nil => simpa [run_nil] using h
  | cons m rest ih =>
    rw [noResurrect_cons, Bool.and_eq_true] at hg
    rw [posToggleTimes_cons, Bool.and_eq_true] at ht
    rw [run_cons]
    exact ih _ (completedAtInv_step s m h hg.1 ht.1) hg.2 ht.2

theorem completedAtInv_init : CompletedAtInv initState := by
  intro a t hmem
  simp [initState] at hmem

theorem dead_append (l : List Task) (t : Task) (j : Nat) (hj : j < l.length)
    (hdead : byteLen (l[j]).content = 0) :
    ∃ h2 : j < (l ++ [t]).length, byteLen ((l ++ [t])[j]).content = 0 := by
  have h2 : j < (l ++ [t]).length := by simp; omega
  refine ⟨h2, ?_⟩
  rw [List.getElem_append]
  split
  · exact hdead
  · next hge => exact absurd hj hge

theorem dead_set (l : List Task) (i : Nat) (t : Task) (j : Nat) (hj : j < l.length)
    (hdead : byteLen (l[j]).content = 0)
    (ht : i = j → byteLen t.content = 0) :
    ∃ h2 : j < (l.set i t).length, byteLen ((l.set i t)[j]).content = 0 := by
  have h2 : j < (l.set i t).length := by simpa using hj
  refine ⟨h2, ?_⟩
  rw [List.getElem_set]
  split
  · next heq => exact ht heq
  · exact hdead

theorem dead_step (s : TodoState) (m : Nat × Op) (a j : Nat)
    (hd : DeadAt s a j) (hg : updGuard s m.1 m.2 = true) : DeadAt (step s m) a j := by
  obtain ⟨c, op⟩ := m
  obtain ⟨hj, hdead⟩ := hd
  cases op with
  | create content now =>
    by_cases h1 : byteLen content = 0
    · rw [step_err (m := (c, Op.create content now)) (createTask_err s c content now (Or.inl h1))]
      exact ⟨hj, hdead⟩
    · by_cases h2 : 500 < byteLen content
      · rw [step_err (m := (c, Op.create content now)) (createTask_err s c content now (Or.inr h2))]
        exact ⟨hj, hdead⟩
      · rw [step_ok (m := (c, Op.create content now)) (createTask_ok s c content now h1 h2)]
        unfold DeadAt
        dsimp only
        by_cases hac : a = c
        · subst hac
          simp only [upd_self]
          exact dead_append _ _ j hj hdead
        · simp only [upd_ne _ _ _ hac]
          exact ⟨hj, hdead⟩
  | toggle taskId now =>
    by_cases hok : taskId < (s.userTasks c).length
    · rw [step_ok (m := (c, Op.toggle taskId now)) (toggleTask_ok s c taskId now hok)]
      unfold DeadAt
      dsimp only
      by_cases hac : a = c
      · subst hac
        simp only [upd_self]
        refine dead_set _ taskId _ j hj hdead ?_
        intro heq
        rw [toggleResult_content, List.getD_eq_getElem _ _ hok]
        subst heq
        exact hdead
      · simp only [upd_ne _ _ _ hac]
        exact ⟨hj, hdead⟩
    · rw [step_err (m := (c, Op.toggle taskId now)) (toggleTask_nf s c taskId now hok)]
      exact ⟨hj, hdead⟩
  | update taskId newContent =>
    by_cases hok : taskId < (s.userTasks c).length
    · by_cases h1 : byteLen newContent = 0
      · rw [step_err (m := (c, Op.update taskId newContent))
          (updateTask_invalid s c taskId newContent hok (Or.inl h1))]
        exact ⟨hj, hdead⟩
      · by_cases h2 : 500 < byteLen newContent
        · rw [step_err (m := (c, Op.update taskId newContent))
            (updateTask_invalid s c taskId newContent hok (Or.inr h2))]
          exact ⟨hj, hdead⟩
        · have hlive0 : byteLen ((s.userTasks c).getD taskId defaultTask).content ≠ 0 := by
            simp only [updGuard, Bool.or_eq_true, Bool.not_eq_eq_eq_not, Bool.not_true,
              decide_eq_false_iff_not] at hg
            rcases hg with hg3 | hg3
            · exact absurd hok hg3
            · exact hg3
          rw [step_ok (m := (c, Op.update taskId newContent))
            (updateTask_ok s c taskId newContent hok h1 h2)]
          unfold DeadAt
          dsimp only
          by_cases hac : a = c
          · subst hac
            simp only [upd_self]
            refine dead_set _ taskId _ j hj hdead ?_
            intro heq
            exfalso
            apply hlive0
            rw [List.getD_eq_getElem _ _ hok]
            subst heq
            exact hdead
          · simp only [upd_ne _ _ _ hac]
            exact ⟨hj, hdead⟩
    · rw [step_err (m := (c, Op.update taskId newContent))
        (updateTask_nf s c taskId newContent hok)]
      exact ⟨hj, hdead⟩
  | delete taskId =>
    by_cases hok : taskId < (s.userTasks c).length
    · by_cases hdd : byteLen ((s.userTasks c).getD taskId defaultTask).content = 0
      · rw [step_err (m := (c, Op.delete taskId)) (deleteTask_already s c taskId hok hdd)]
        exact ⟨hj, hdead⟩
      · by_cases hcnt : s.taskCount c = 0
        · rw [step_err (m := (c, Op.delete taskId)) (deleteTask_panic s c taskId hok hdd hcnt)]
          exact ⟨hj, hdead⟩
        · rw [step_ok (m := (c, Op.delete taskId)) (deleteTask_ok s c taskId hok hdd hcnt)]
          unfold DeadAt
          dsimp only
          by_cases hac : a = c
          · subst hac
            simp only [upd_self]
            exact dead_set _ taskId _ j hj hdead (fun _ => rfl)
          · simp only [upd_ne _ _ _ hac]
            exact ⟨hj, hdead⟩
    · rw [step_err (m := (c, Op.delete taskId)) (deleteTask_nf s c taskId hok)]
      exact ⟨hj, hdead⟩

theorem dead_run (ops : List (Nat × Op)) (s : TodoState) (a j : Nat)
    (hd : DeadAt s a j) (hg : noResurrect s ops = true) : DeadAt (run s ops) a j := by
  induction ops generalizing s with
  | nil => simpa [run_nil] using hd
  | cons m rest ih =>
    rw [noResurrect_cons, Bool.and_eq_true] at hg
    rw [run_cons]
    exact ih _ (dead_step s m a j hd hg.1) hg.2

theorem noUpdateOf_cons (a j : Nat) (m : Nat × Op) (ops : List (Nat × Op)) :
    noUpdateOf a j (m :: ops) = (!updatesSlot a j m && noUpdateOf a j ops) := by
  simp [noUpdateOf]

theorem dead_step_local (s : TodoState) (m : Nat × Op) (a j : Nat)
    (hd : DeadAt s a j) (hm : updatesSlot a j m = false) : DeadAt (step s m) a j := by
  obtain ⟨c, op⟩ := m
  obtain ⟨hj, hdead⟩ := hd
  cases op with
  | create content now =>
    by_cases h1 : byteLen content = 0
    · rw [step_err (m := (c, Op.create content now)) (createTask_err s c content now (Or.inl h1))]
      exact ⟨hj, hdead⟩
    · by_cases h2 : 500 < byteLen content
      · rw [step_err (m := (c, Op.create content now))
          (createTask_err s c content now (Or.inr h2))]
        exact ⟨hj, hdead⟩
      · rw [step_ok (m := (c, Op.create content now)) (createTask_ok s c content now h1 h2)]
        unfold DeadAt
        dsimp only
        by_cases hac : a = c
        · subst hac
          simp only [upd_self]
          exact dead_append _ _ j hj hdead
        · simp only [upd_ne _ _ _ hac]
          exact ⟨hj, hdead⟩
  | toggle taskId now =>
    by_cases hok : taskId < (s.userTasks c).length
    · rw [step_ok (m := (c, Op.toggle taskId now)) (toggleTask_ok s c taskId now hok)]
      unfold DeadAt
      dsimp only
      by_cases hac : a = c
      · subst hac
        simp only [upd_self]
        refine dead_set _ taskId _ j hj hdead ?_
        intro heq
        rw [toggleResult_content, List.getD_eq_getElem _ _ hok]
        subst heq
        exact hdead
      · simp only [upd_ne _ _ _ hac]
        exact ⟨hj, hdead⟩
    · rw [step_err (m := (c, Op.toggle taskId now)) (toggleTask_nf s c taskId now hok)]
      exact ⟨hj, hdead⟩
  | update taskId newContent =>
    by_cases hok : taskId < (s.userTasks c).length
    · by_cases h1 : byteLen newContent = 0
      · rw [step_err (m := (c, Op.update taskId newContent))
          (updateTask_invalid s c taskId newContent hok (Or.inl h1))]
        exact ⟨hj, hdead⟩
      · by_cases h2 : 500 < byteLen newContent
        · rw [step_err (m := (c, Op.update taskId newContent))
            (updateTask_invalid s c taskId newContent hok (Or.inr h2))]
          exact ⟨hj, hdead⟩
        · rw [step_ok (m := (c, Op.update taskId newContent))
            (updateTask_ok s c taskId newContent hok h1 h2)]
          unfold DeadAt
          dsimp only
          by_cases hac : a = c
          · subst hac
            simp only [upd_self]
            refine dead_set _ taskId _ j hj hdead ?_
            intro heq
            exfalso
            simp [updatesSlot, heq] at hm
          · simp only [upd_ne _ _ _ hac]
            exact ⟨hj, hdead⟩
    · rw [step_err (m := (c, Op.update taskId newContent))
        (updateTask_nf s c taskId newContent hok)]
      exact ⟨hj, hdead⟩
  | delete taskId =>
    by_cases hok : taskId < (s.userTasks c).length
    · by_cases hdd : byteLen ((s.userTasks c).getD taskId defaultTask).content = 0
      · rw [step_err (m := (c, Op.delete taskId)) (deleteTask_already s c taskId hok hdd)]
        exact ⟨hj, hdead⟩
      · by_cases hcnt : s.taskCount c = 0
        · rw [step_err (m := (c, Op.delete taskId)) (deleteTask_panic s c taskId hok hdd hcnt)]
          exact ⟨hj, hdead⟩
        · rw [step_ok (m := (c, Op.delete taskId)) (deleteTask_ok s c taskId hok hdd hcnt)]
          unfold DeadAt
          dsimp only
          by_cases hac : a = c
          · subst hac
            simp only [upd_self]
            exact dead_set _ taskId _ j hj hdead (fun _ => rfl)
          · simp only [upd_ne _ _ _ hac]
            exact ⟨hj, hdead⟩
    · rw [step_err (m := (c, Op.delete taskId)) (deleteTask_nf s c taskId hok)]
      exact ⟨hj, hdead⟩

theorem dead_run_local (ops : List (Nat × Op)) (s : TodoState) (a j : Nat)
    (hd : DeadAt s a j) (hg : noUpdateOf a j ops = true) : DeadAt (run s ops) a j := by
  induction ops generalizing s with
  | nil => simpa [run_nil] using hd
  | cons m rest ih =>
    rw [noUpdateOf_cons, Bool.and_eq_true] at hg
    rw [run_cons]
    refine ih _ (dead_step_local s m a j hd ?_) hg.2
    simpa using hg.1

/- ===== Slot access / ordering helpers ===== -/

theorem getD_set_self (l : List Task) (j : Nat) (t : Task) (hj : j < l.length) :
    (l.set j t).getD j defaultTask = t := by
  have hj2 : j < (l.set j t).length := by simpa using hj
  rw [List.getD_eq_getElem _ _ hj2, List.getElem_set]
  simp

theorem getD_set_ne (l : List Task) (i j : Nat) (t : Task) (hj : j < l.length) (hne : i ≠ j) :
    (l.set i t).getD j defaultTask = l.getD j defaultTask := by
  have hj2 : j < (l.set i t).length := by simpa using hj
  rw [List.getD_eq_getElem _ _ hj2, List.getElem_set, List.getD_eq_getElem _ _ hj]
  simp [hne]

theorem mem_id_eq (l : List Task) (hl : ∀ i (hi : i < l.length), (l[i]).id = i)
    (t : Task) (hmem : t ∈ l) (j : Nat) (hj : j < l.length) (hid : t.id = j) :
    t = l[j] := by
  obtain ⟨i, hi, rfl⟩ := List.getElem_of_mem hmem
  have hij : i = j := by rw [hl i hi] at hid; exact hid
  subst hij
  rfl

theorem pairwise_ids (l : List Task) (hl : ∀ i (hi : i < l.length), (l[i]).id = i) :
    List.Pairwise (fun x y => x.id < y.id) l := by
  have hmap : l.map Task.id = List.range l.length := by
    apply List.ext_getElem
    · simp
    · intro i h1 h2
      simp only [List.getElem_map, List.getElem_range]
      exact hl i (by simpa using h1)
  have hpl := List.pairwise_lt_range l.length
  rw [← hmap] at hpl
  exact List.pairwise_map.mp hpl

/- ===== Cross-owner frame and query locality ===== -/

theorem step_frame (s : TodoState) (b : Nat) (op : Op) (a : Nat) (hab : a ≠ b) :
    (step s (b, op)).userTasks a = s.userTasks a ∧
      (step s (b, op)).taskCount a = s.taskCount a := by
  cases op with
  | create content now =>
    by_cases h1 : byteLen content = 0
    · rw [step_err (m := (b, Op.create content now)) (createTask_err s b content now (Or.inl h1))]
      exact ⟨rfl, rfl⟩
    · by_cases h2 : 500 < byteLen content
      · rw [step_err (m := (b, Op.create content now))
          (createTask_err s b content now (Or.inr h2))]
        exact ⟨rfl, rfl⟩
      · rw [step_ok (m := (b, Op.create content now)) (createTask_ok s b content now h1 h2)]
        exact ⟨upd_ne _ _ _ hab, upd_ne _ _ _ hab⟩
  | toggle taskId now =>
    by_cases hok : taskId < (s.userTasks b).length
    · rw [step_ok (m := (b, Op.toggle taskId now)) (toggleTask_ok s b taskId now hok)]
      exact ⟨upd_ne _ _ _ hab, rfl⟩
    · rw [step_err (m := (b, Op.toggle taskId now)) (toggleTask_nf s b taskId now hok)]
      exact ⟨rfl, rfl⟩
  | update taskId newContent =>
    by_cases hok : taskId < (s.userTasks b).length
    · by_cases h1 : byteLen newContent = 0
      · rw [step_err (m := (b, Op.update taskId newContent))
          (updateTask_invalid s b taskId newContent hok (Or.inl h1))]
        exact ⟨rfl, rfl⟩
      · by_cases h2 : 500 < byteLen newContent
        · rw [step_err (m := (b, Op.update taskId newContent))
            (updateTask_invalid s b taskId newContent hok (Or.inr h2))]
          exact ⟨rfl, rfl⟩
        · rw [step_ok (m := (b, Op.update taskId newContent))
            (updateTask_ok s b taskId newContent hok h1 h2)]
          exact ⟨upd_ne _ _ _ hab, rfl⟩
    · rw [step_err (m := (b, Op.update taskId newContent))
        (updateTask_nf s b taskId newContent hok)]
      exact ⟨rfl, rfl⟩
  | delete taskId =>
    by_cases hok : taskId < (s.userTasks b).length
    · by_cases hdd : byteLen ((s.userTasks b).getD taskId defaultTask).content = 0
      · rw [step_err (m := (b, Op.delete taskId)) (deleteTask_already s b taskId hok hdd)]
        exact ⟨rfl, rfl⟩
      · by_cases hcnt : s.taskCount b = 0
        · rw [step_err (m := (b, Op.delete taskId)) (deleteTask_panic s b taskId hok hdd hcnt)]
          exact ⟨rfl, rfl⟩
        · rw [step_ok (m := (b, Op.delete taskId)) (deleteTask_ok s b taskId hok hdd hcnt)]
          exact ⟨upd_ne _ _ _ hab, upd_ne _ _ _ hab⟩
    · rw [step_err (m := (b, Op.delete taskId)) (deleteTask_nf s b taskId hok)]
      exact ⟨rfl, rfl⟩

theorem queries_local (s s2 : TodoState) (b : Nat)
    (hT : s.userTasks b = s2.userTasks b) (hC : s.taskCount b = s2.taskCount b) :
    getAllTasks s b = getAllTasks s2 b ∧
    getCompletedTasks s b = getCompletedTasks s2 b ∧
    getPendingTasks s b = getPendingTasks s2 b ∧
    getActiveTaskCount s b = getActiveTaskCount s2 b ∧
    (∀ i, getTask s b i = getTask s2 b i) := by
  refine ⟨?_, ?_, ?_, ?_, ?_⟩ <;>
    simp [getAllTasks, getCompletedTasks, getPendingTasks, getActiveTaskCount, getTask, hT, hC]

/- ===== Properties of a soft-deleted slot ===== -/

theorem dead_slot_props (s : TodoState) (a j : Nat) (hd : DeadAt s a j) (hid : IdInv s) :
    deleteTask s a j = .error .AlreadyDeleted ∧
    (∀ t ∈ getCompletedTasks s a, t.id ≠ j) ∧
    (∀ t ∈ getPendingTasks s a, t.id ≠ j) ∧
    (∀ now, succeeds (toggleTask s a j now) = true) ∧
    (∀ nc, byteLen nc ≠ 0 → ¬ 500 < byteLen nc → succeeds (updateTask s a j nc) = true) ∧
    getTask s a j = .ok ((s.userTasks a).getD j defaultTask) ∧
    (s.userTasks a).getD j defaultTask ∈ getAllTasks s a := by
  obtain ⟨hj, hdead⟩ := hd
  have hdead2 : byteLen ((s.userTasks a).getD j defaultTask).content = 0 := by
    rw [List.getD_eq_getElem _ _ hj]
    exact hdead
  refine ⟨deleteTask_already s a j hj hdead2, ?_, ?_, ?_, ?_, getTask_ok s a j hj, ?_⟩
  · intro t hmem hidj
    rw [getCompletedTasks_eq_filter, List.mem_filter] at hmem
    have ht := mem_id_eq (s.userTasks a) (hid a) t hmem.1 j hj hidj
    have hc := hmem.2
    rw [ht] at hc
    simp [isCompletedLive, hdead] at hc
  · intro t hmem hidj
    rw [getPendingTasks_eq_filter, List.mem_filter] at hmem
    have ht := mem_id_eq (s.userTasks a) (hid a) t hmem.1 j hj hidj
    have hc := hmem.2
    rw [ht] at hc
    simp [isPendingLive, hdead] at hc
  · intro now
    rw [toggleTask_ok s a j now hj]
    rfl
  · intro nc h1 h2
    rw [updateTask_ok s a j nc hj h1 h2]
    rfl
  · rw [List.getD_eq_getElem _ _ hj]
    exact List.getElem_mem hj

theorem deadAt_intro (s : TodoState) (a j : Nat) (hj : j < (s.userTasks a).length)
    (h : byteLen ((s.userTasks a).getD j defaultTask).content = 0) : DeadAt s a j := by
  rw [List.getD_eq_getElem _ _ hj] at h
  exact ⟨hj, h⟩

/- ===== Claim theorems ===== -/

/-- C1 counterexample: after create "a"; delete 0; update 0 "b" (a
resurrection), getActiveTaskCount returns 0 but the owner has 1 task with
non-empty content, so the claimed equality fails on the code. -/
theorem C1_cex :
    getActiveTaskCount resurrectState 0 = 0 ∧
      liveCount (resurrectState.userTasks 0) = 1 := by
  exact ⟨by decide, by decide⟩

/-- C1 (amended): for every owner, after any finite call sequence in which
updateTask never targets a soft-deleted slot, getActiveTaskCount equals the
number of tasks with non-empty content; unconditionally, every successful
createTask increments the maintained count by exactly one and every
successful deleteTask decrements it by exactly one. -/
theorem C1_count_accounting :
    (∀ ops a, noResurrect initState ops = true →
      getActiveTaskCount (run initState ops) a = liveCount ((run initState ops).userTasks a)) ∧
    (∀ s c content now s2, createTask s c content now = .ok s2 →
      s2.taskCount c = s.taskCount c + 1) ∧
    (∀ s c taskId s2, deleteTask s c taskId = .ok s2 →
      s2.taskCount c + 1 = s.taskCount c) := by
  refine ⟨?_, ?_, ?_⟩
  · intro ops a hg
    exact (countInv_run ops initState countInv_init hg) a
  · intro s c content now s2 h
    by_cases h1 : byteLen content = 0
    · rw [createTask_err s c content now (Or.inl h1)] at h
      cases h
    · by_cases h2 : 500 < byteLen content
      · rw [createTask_err s c content now (Or.inr h2)] at h
        cases h
      · rw [createTask_ok s c content now h1 h2] at h
        injection h with h3
        subst h3
        exact upd_self _ _ _
  · intro s c taskId s2 h
    by_cases hok : taskId < (s.userTasks c).length
    · by_cases hdd : byteLen ((s.userTasks c).getD taskId defaultTask).content = 0
      · rw [deleteTask_already s c taskId hok hdd] at h
        cases h
      · by_cases hcnt : s.taskCount c = 0
        · rw [deleteTask_panic s c taskId hok hdd hcnt] at h
          cases h
        · rw [deleteTask_ok s c taskId hok hdd hcnt] at h
          injection h with h3
          subst h3
          dsimp only
          rw [upd_self]
          omega
    · rw [deleteTask_nf s c taskId hok] at h
      cases h

/-- C1 witness: the amended count equality instantiated on the concrete
one-task trace. -/
theorem C1_witness :
    getActiveTaskCount (run initState oneTaskOps) 0
      = liveCount ((run initState oneTaskOps).userTasks 0) :=
  C1_count_accounting.1 oneTaskOps 0 (by decide)

/-- C2 counterexample: after create "a"; delete 0 the slot is soft-deleted
(content ""), yet toggleTask succeeds on it, updateTask succeeds on it
(resurrecting it), and the deleted task still appears in getAllTasks —
refuting "can never be toggled, updated ... and never appears in any
query, including getAllTasks". -/
theorem C2_cex :
    byteLen ((delState.userTasks 0).getD 0 defaultTask).content = 0 ∧
    succeeds (toggleTask delState 0 0 5) = true ∧
    succeeds (updateTask delState 0 0 "b") = true ∧
    (delState.userTasks 0).getD 0 defaultTask ∈ getAllTasks delState 0 := by
  exact ⟨by decide, by decide, by decide, by decide⟩

/-- C2 (amended): once a task's content is the empty string, deleteTask on
its id always fails with AlreadyDeleted, no task with that id ever appears
in getCompletedTasks or getPendingTasks, and the slot stays deleted under
any further calls — by any caller, on any slot — that never updateTask
this particular slot; however toggleTask still succeeds at its index,
updateTask with valid content still succeeds (resurrecting it), and the
slot is still returned by getAllTasks and getTask. -/
theorem C2_soft_delete_permanence :
    ∀ s a j, DeadAt s a j → IdInv s →
      deleteTask s a j = .error .AlreadyDeleted ∧
      (∀ t ∈ getCompletedTasks s a, t.id ≠ j) ∧
      (∀ t ∈ getPendingTasks s a, t.id ≠ j) ∧
      (∀ ops, noUpdateOf a j ops = true → DeadAt (run s ops) a j) ∧
      (∀ now, succeeds (toggleTask s a j now) = true) ∧
      (∀ nc, byteLen nc ≠ 0 → ¬ 500 < byteLen nc → succeeds (updateTask s a j nc) = true) ∧
      getTask s a j = .ok ((s.userTasks a).getD j defaultTask) ∧
      (s.userTasks a).getD j defaultTask ∈ getAllTasks s a := by
  intro s a j hd hid
  obtain ⟨h1, h2, h3, h4, h5, h6, h7⟩ := dead_slot_props s a j hd hid
  exact ⟨h1, h2, h3, fun ops hg => dead_run_local ops s a j hd hg, h4, h5, h6, h7⟩

/-- C2 witness: the amended soft-delete facts instantiated on the concrete
deleted-slot state. -/
theorem C2_witness :
    deleteTask delState 0 0 = .error .AlreadyDeleted ∧
      succeeds (toggleTask delState 0 0 9) = true :=
  have h := C2_soft_delete_permanence delState 0 0 ⟨by decide, by decide⟩
    (idInv_run delOps initState idInv_init)
  ⟨h.1, h.2.2.2.2.1 9⟩

/-- C3 counterexample: identity 1 calls getTaskCountForUser on identity 0
and reads 1 after identity 0 created a task (0 beforehand), so tasks
created by A are countable through a call made by B, refuting the claim. -/
theorem C3_cex :
    getTaskCountForUser oneTaskState 1 0 = 1 ∧
      getTaskCountForUser initState 1 0 = 0 := by
  exact ⟨by decide, by decide⟩

/-- C3 (amended): no call made by B mutates A's task sequence or A's
maintained count, and every caller-scoped query made by B (getAllTasks,
getCompletedTasks, getPendingTasks, getActiveTaskCount, getTask) depends
only on B's own storage, so A's tasks are invisible through them; the one
exception, shown by the counterexample, is the deliberately cross-identity
getTaskCountForUser. -/
theorem C3_isolation :
    (∀ s b op a, a ≠ b →
      (step s (b, op)).userTasks a = s.userTasks a ∧
      (step s (b, op)).taskCount a = s.taskCount a) ∧
    (∀ s s2 b, s.userTasks b = s2.userTasks b → s.taskCount b = s2.taskCount b →
      getAllTasks s b = getAllTasks s2 b ∧
      getCompletedTasks s b = getCompletedTasks s2 b ∧
      getPendingTasks s b = getPendingTasks s2 b ∧
      getActiveTaskCount s b = getActiveTaskCount s2 b ∧
      (∀ i, getTask s b i = getTask s2 b i)) := by
  constructor
  · intro s b op a hab
    exact step_frame s b op a hab
  · intro s s2 b hT hC
    exact queries_local s s2 b hT hC

/-- C3 witness: a mutation by identity 1 leaves identity 0's storage
untouched in the concrete one-task state. -/
theorem C3_witness :
    (step oneTaskState (1, Op.create "x" 2)).userTasks 0 = oneTaskState.userTasks 0 ∧
      (step oneTaskState (1, Op.create "x" 2)).taskCount 0 = oneTaskState.taskCount 0 :=
  C3_isolation.1 oneTaskState 1 (Op.create "x" 2) 0 (by decide)

/-- C4: createTask with content byte length in [1, 500] appends a task
with id = current sequence length, completed = false, createdAt = now,
completedAt = 0, and increments the maintained count; content of byte
length 0 or above 500 fails with InvalidContent; and in every reachable
state each stored task's id equals its 0-based position, i.e. its creation
order, so ids never change. -/
theorem C4_createTask_spec :
    (∀ s c content now, 1 ≤ byteLen content → byteLen content ≤ 500 →
      createTask s c content now = .ok
        { userTasks := upd s.userTasks c (s.userTasks c ++
            [{ id := (s.userTasks c).length, content := content, completed := false,
               createdAt := now, completedAt := 0 }]),
          taskCount := upd s.taskCount c (s.taskCount c + 1) }) ∧
    (∀ s c content now, byteLen content = 0 ∨ 500 < byteLen content →
      createTask s c content now = .error .InvalidContent) ∧
    (∀ ops, IdInv (run initState ops)) := by
  refine ⟨?_, ?_, ?_⟩
  · intro s c content now hl hu
    exact createTask_ok s c content now (by omega) (by omega)
  · intro s c content now h
    exact createTask_err s c content now h
  · intro ops
    exact idInv_run ops initState idInv_init

/-- C4 witness: creation of "a" at time 5 from the empty state, with the
stated resulting storage. -/
theorem C4_witness :
    createTask initState 0 "a" 5 = .ok
      { userTasks := upd initState.userTasks 0 (initState.userTasks 0 ++
          [{ id := (initState.userTasks 0).length, content := "a", completed := false,
             createdAt := 5, completedAt := 0 }]),
        taskCount := upd initState.taskCount 0 (initState.taskCount 0 + 1) } :=
  C4_createTask_spec.1 initState 0 "a" 5 (by decide) (by decide)

/-- C5 counterexample: in the reachable resurrected state, id 0 is in
range and its content is non-empty, yet deleteTask reverts with the
checked-arithmetic panic instead of decrementing the count by 1; moreover
id 0 appears again in getCompletedTasks although its delete succeeded
earlier in the trace — refuting both halves of the claim as stated. -/
theorem C5_cex :
    0 < (resurrectState.userTasks 0).length ∧
    byteLen ((resurrectState.userTasks 0).getD 0 defaultTask).content ≠ 0 ∧
    deleteTask resurrectState 0 0 = .error .Panic ∧
    (getCompletedTasks resurrectState 0).map Task.id = [0] := by
  exact ⟨by decide, by decide, rfl, by decide⟩

/-- C5 (amended): deleteTask(id) with id in range, non-empty content and a
positive maintained count sets content to "", forces completed = true,
leaves completedAt untouched and decrements the count by exactly 1;
deleteTask on an empty slot fails with AlreadyDeleted; and after a delete,
as long as no later updateTask call addresses that particular slot (other
slots and other owners are unrestricted), no task with that id appears in
getCompletedTasks or getPendingTasks and a second deleteTask fails with
AlreadyDeleted. -/
theorem C5_deleteTask_spec :
    (∀ s c j, j < (s.userTasks c).length →
      byteLen ((s.userTasks c).getD j defaultTask).content ≠ 0 →
      0 < s.taskCount c →
      ∃ s2, deleteTask s c j = .ok s2 ∧
        ((s2.userTasks c).getD j defaultTask).content = "" ∧
        ((s2.userTasks c).getD j defaultTask).completed = true ∧
        ((s2.userTasks c).getD j defaultTask).completedAt
          = ((s.userTasks c).getD j defaultTask).completedAt ∧
        s2.taskCount c + 1 = s.taskCount c ∧
        DeadAt s2 c j) ∧
    (∀ s c j, j < (s.userTasks c).length →
      byteLen ((s.userTasks c).getD j defaultTask).content = 0 →
      deleteTask s c j = .error .AlreadyDeleted) ∧
    (∀ s c j, DeadAt s c j → IdInv s → ∀ ops, noUpdateOf c j ops = true →
      deleteTask (run s ops) c j = .error .AlreadyDeleted ∧
      (∀ t ∈ getCompletedTasks (run s ops) c, t.id ≠ j) ∧
      (∀ t ∈ getPendingTasks (run s ops) c, t.id ≠ j)) := by
  refine ⟨?_, ?_, ?_⟩
  · intro s c j hok hlive hcnt
    have hcnt2 : s.taskCount c ≠ 0 := by omega
    refine ⟨_, deleteTask_ok s c j hok hlive hcnt2, ?_, ?_, ?_, ?_, ?_⟩
    · dsimp only
      rw [upd_self, getD_set_self _ _ _ hok]
    · dsimp only
      rw [upd_self, getD_set_self _ _ _ hok]
    · dsimp only
      rw [upd_self, getD_set_self _ _ _ hok]
    · dsimp only
      rw [upd_self]
      omega
    · refine deadAt_intro _ c j ?_ ?_
      · dsimp only
        rw [upd_self]
        simpa using hok
      · dsimp only
        rw [upd_self, getD_set_self _ _ _ hok]
        rfl
  · intro s c j hok hdd
    exact deleteTask_already s c j hok hdd
  · intro s c j hd hid ops hg
    have hd2 := dead_run_local ops s c j hd hg
    have hid2 := idInv_run ops s hid
    obtain ⟨h1, h2, h3, _, _, _, _⟩ := dead_slot_props (run s ops) c j hd2 hid2
    exact ⟨h1, h2, h3⟩

/-- C5 witness: deleting the single live task of the concrete one-task
state succeeds with the stated slot and count effects. -/
theorem C5_witness :
    ∃ s2, deleteTask oneTaskState 0 0 = .ok s2 ∧
      ((s2.userTasks 0).getD 0 defaultTask).content = "" ∧
      ((s2.userTasks 0).getD 0 defaultTask).completed = true ∧
      ((s2.userTasks 0).getD 0 defaultTask).completedAt
        = ((oneTaskState.userTasks 0).getD 0 defaultTask).completedAt ∧
      s2.taskCount 0 + 1 = oneTaskState.taskCount 0 ∧
      DeadAt s2 0 0 :=
  C5_deleteTask_spec.1 oneTaskState 0 0 (by decide) (by decide) (by decide)

/-- C6 counterexample: in the reachable resurrected state, slot 0 is live
(content "b") with completed = true but completedAt = 0, refuting the
claimed equivalence "completedAt > 0 iff completed" for live tasks after
an arbitrary operation sequence. -/
theorem C6_cex :
    byteLen ((resurrectState.userTasks 0).getD 0 defaultTask).content ≠ 0 ∧
    ((resurrectState.userTasks 0).getD 0 defaultTask).completed = true ∧
    ((resurrectState.userTasks 0).getD 0 defaultTask).completedAt = 0 := by
  exact ⟨by decide, by decide, by decide⟩

/-- C6 (amended): after any operation sequence from deployment in which
updateTask never resurrects a deleted slot and every toggle carries a
positive block timestamp, every live task satisfies completedAt > 0 iff
completed = true; toggleTask on any in-range slot flips the completed
flag, setting completedAt = now when it becomes true and 0 when it becomes
false, and two consecutive toggles restore the completed flag. -/
theorem C6_completedAt_toggle :
    (∀ ops, noResurrect initState ops = true → posToggleTimes ops = true →
      CompletedAtInv (run initState ops)) ∧
    (∀ s c j now, j < (s.userTasks c).length →
      ∃ s2, toggleTask s c j now = .ok s2 ∧
        ((s2.userTasks c).getD j defaultTask).completed
          = !((s.userTasks c).getD j defaultTask).completed ∧
        ((s2.userTasks c).getD j defaultTask).completedAt
          = (if ((s.userTasks c).getD j defaultTask).completed then 0 else now)) ∧
    (∀ s c j now now2 s2 s3, j < (s.userTasks c).length →
      toggleTask s c j now = .ok s2 → toggleTask s2 c j now2 = .ok s3 →
      ((s3.userTasks c).getD j defaultTask).completed
        = ((s.userTasks c).getD j defaultTask).completed) := by
  refine ⟨?_, ?_, ?_⟩
  · intro ops hg ht
    exact completedAtInv_run ops initState completedAtInv_init hg ht
  · intro s c j now hok
    refine ⟨_, toggleTask_ok s c j now hok, ?_, ?_⟩
    · dsimp only
      rw [upd_self, getD_set_self _ _ _ hok, toggleResult_completed]
    · dsimp only
      rw [upd_self, getD_set_self _ _ _ hok, toggleResult_completedAt]
  · intro s c j now now2 s2 s3 hok h1 h2
    rw [toggleTask_ok s c j now hok] at h1
    injection h1 with h1e
    subst h1e
    have hok1 : j < ((s.userTasks c).set j
        (toggleResult ((s.userTasks c).getD j defaultTask) now)).length := by
      simpa using hok
    have hok2 : j < (({ s with userTasks := upd s.userTasks c ((s.userTasks c).set j
        (toggleResult ((s.userTasks c).getD j defaultTask) now)) }).userTasks c).length := by
      dsimp only
      rw [upd_self]
      exact hok1
    rw [toggleTask_ok _ c j now2 hok2] at h2
    injection h2 with h2e
    subst h2e
    dsimp only
    simp only [upd_self]
    rw [getD_set_self _ _ _ hok1, toggleResult_completed, getD_set_self _ _ _ hok,
      toggleResult_completed, Bool.not_not]

/-- C6 witness: toggling the single pending task of the concrete one-task
state at time 7 completes it with completedAt = 7. -/
theorem C6_witness :
    ∃ s2, toggleTask oneTaskState 0 0 7 = .ok s2 ∧
      ((s2.userTasks 0).getD 0 defaultTask).completed
        = !((oneTaskState.userTasks 0).getD 0 defaultTask).completed ∧
      ((s2.userTasks 0).getD 0 defaultTask).completedAt
        = (if ((oneTaskState.userTasks 0).getD 0 defaultTask).completed then 0 else 7) :=
  C6_completedAt_toggle.2.1 oneTaskState 0 0 7 (by decide)

/-- C7: toggleTask, updateTask, deleteTask and getTask fail with
TaskNotFound exactly when the id is outside [0, sequence length) for the
caller; the validity check tests only index bounds, so an in-range deleted
slot passes it (toggleTask succeeds there and deleteTask reaches the
AlreadyDeleted check instead); every failing call leaves the state
unchanged, and a retry with the same arguments fails with the same error. -/
theorem C7_errors_atomicity :
    (∀ s c taskId now, toggleTask s c taskId now = .error .TaskNotFound ↔
      ¬ taskId < (s.userTasks c).length) ∧
    (∀ s c taskId newContent, updateTask s c taskId newContent = .error .TaskNotFound ↔
      ¬ taskId < (s.userTasks c).length) ∧
    (∀ s c taskId, deleteTask s c taskId = .error .TaskNotFound ↔
      ¬ taskId < (s.userTasks c).length) ∧
    (∀ s c taskId, getTask s c taskId = .error .TaskNotFound ↔
      ¬ taskId < (s.userTasks c).length) ∧
    (∀ s c taskId now, taskId < (s.userTasks c).length →
      byteLen ((s.userTasks c).getD taskId defaultTask).content = 0 →
      succeeds (toggleTask s c taskId now) = true ∧
      deleteTask s c taskId = .error .AlreadyDeleted) ∧
    (∀ s c op e, applyOp s c op = .error e →
      step s (c, op) = s ∧ applyOp (step s (c, op)) c op = .error e) := by
  refine ⟨?_, ?_, ?_, ?_, ?_, ?_⟩
  · intro s c taskId now
    constructor
    · intro heq
      intro hlt
      rw [toggleTask_ok s c taskId now hlt] at heq
      simp at heq
    · intro h
      exact toggleTask_nf s c taskId now h
  · intro s c taskId newContent
    constructor
    · intro heq
      intro hlt
      by_cases h1 : byteLen newContent = 0
      · rw [updateTask_invalid s c taskId newContent hlt (Or.inl h1)] at heq
        simp at heq
      · by_cases h2 : 500 < byteLen newContent
        · rw [updateTask_invalid s c taskId newContent hlt (Or.inr h2)] at heq
          simp at heq
        · rw [updateTask_ok s c taskId newContent hlt h1 h2] at heq
          simp at heq
    · intro h
      exact updateTask_nf s c taskId newContent h
  · intro s c taskId
    constructor
    · intro heq
      intro hlt
      by_cases hdd : byteLen ((s.userTasks c).getD taskId defaultTask).content = 0
      · rw [deleteTask_already s c taskId hlt hdd] at heq
        simp at heq
      · by_cases hcnt : s.taskCount c = 0
        · rw [deleteTask_panic s c taskId hlt hdd hcnt] at heq
          simp at heq
        · rw [deleteTask_ok s c taskId hlt hdd hcnt] at heq
          simp at heq
    · intro h
      exact deleteTask_nf s c taskId h
  · intro s c taskId
    constructor
    · intro heq
      intro hlt
      rw [getTask_ok s c taskId hlt] at heq
      simp at heq
    · intro h
      exact getTask_nf s c taskId h
  · intro s c taskId now hok hdd
    constructor
    · rw [toggleTask_ok s c taskId now hok]
      rfl
    · exact deleteTask_already s c taskId hok hdd
  · intro s c op e h
    refine ⟨step_err (m := (c, op)) h, ?_⟩
    rw [step_err (m := (c, op)) h]
    exact h

/-- C7 witness: a delete with an out-of-range id on the empty state fails
with TaskNotFound, leaves the state unchanged, and fails identically on
retry. -/
theorem C7_witness :
    step initState (3, Op.delete 2) = initState ∧
      applyOp (step initState (3, Op.delete 2)) 3 (Op.delete 2) = .error .TaskNotFound :=
  C7_errors_atomicity.2.2.2.2.2 initState 3 (Op.delete 2) .TaskNotFound rfl

/-- C8: in every reachable state, getCompletedTasks returns exactly the
caller's tasks with completed = true and non-empty content, and
getPendingTasks exactly those with completed = false and non-empty
content, both in strictly ascending id order. -/
theorem C8_filtered_queries :
    ∀ ops a,
      (∀ t, t ∈ getCompletedTasks (run initState ops) a ↔
        (t ∈ (run initState ops).userTasks a ∧ t.completed = true ∧ byteLen t.content ≠ 0)) ∧
      (∀ t, t ∈ getPendingTasks (run initState ops) a ↔
        (t ∈ (run initState ops).userTasks a ∧ t.completed = false ∧ byteLen t.content ≠ 0)) ∧
      List.Pairwise (fun x y => x.id < y.id) (getCompletedTasks (run initState ops) a) ∧
      List.Pairwise (fun x y => x.id < y.id) (getPendingTasks (run initState ops) a) := by
  intro ops a
  have hid := idInv_run ops initState idInv_init
  have hpw := pairwise_ids ((run initState ops).userTasks a) (hid a)
  refine ⟨?_, ?_, ?_, ?_⟩
  · intro t
    rw [getCompletedTasks_eq_filter, List.mem_filter]
    simp [isCompletedLive, and_assoc]
  · intro t
    rw [getPendingTasks_eq_filter, List.mem_filter]
    simp [isPendingLive, and_assoc]
  · rw [getCompletedTasks_eq_filter]
    exact List.Pairwise.filter _ hpw
  · rw [getPendingTasks_eq_filter]
    exact List.Pairwise.filter _ hpw

/-- C9: updateTask with a valid id and content byte length in [1, 500]
replaces only that task's content: its completed, createdAt, completedAt
and id fields, every other slot, every other owner's storage, and the
maintained count are unchanged; with a valid id and empty or over-500-byte
content it fails with InvalidContent. -/
theorem C9_updateTask_frame :
    (∀ s c taskId newContent, taskId < (s.userTasks c).length →
      1 ≤ byteLen newContent → byteLen newContent ≤ 500 →
      ∃ s2, updateTask s c taskId newContent = .ok s2 ∧
        s2.taskCount = s.taskCount ∧
        (∀ b, b ≠ c → s2.userTasks b = s.userTasks b) ∧
        (s2.userTasks c).length = (s.userTasks c).length ∧
        (∀ j, j < (s.userTasks c).length → j ≠ taskId →
          (s2.userTasks c).getD j defaultTask = (s.userTasks c).getD j defaultTask) ∧
        ((s2.userTasks c).getD taskId defaultTask).content = newContent ∧
        ((s2.userTasks c).getD taskId defaultTask).completed
          = ((s.userTasks c).getD taskId defaultTask).completed ∧
        ((s2.userTasks c).getD taskId defaultTask).createdAt
          = ((s.userTasks c).getD taskId defaultTask).createdAt ∧
        ((s2.userTasks c).getD taskId defaultTask).completedAt
          = ((s.userTasks c).getD taskId defaultTask).completedAt ∧
        ((s2.userTasks c).getD taskId defaultTask).id
          = ((s.userTasks c).getD taskId defaultTask).id) ∧
    (∀ s c taskId newContent, taskId < (s.userTasks c).length →
      byteLen newContent = 0 ∨ 500 < byteLen newContent →
      updateTask s c taskId newContent = .error .InvalidContent) := by
  constructor
  · intro s c taskId newContent hok h1 h2
    have h3 : byteLen newContent ≠ 0 := by omega
    have h4 : ¬ 500 < byteLen newContent := by omega
    refine ⟨_, updateTask_ok s c taskId newContent hok h3 h4,
      rfl, ?_, ?_, ?_, ?_, ?_, ?_, ?_, ?_⟩
    · intro b hbc
      exact upd_ne _ _ _ hbc
    · dsimp only
      rw [upd_self]
      simp
    · intro j hj hne
      dsimp only
      rw [upd_self]
      exact getD_set_ne _ _ _ _ hj (Ne.symm hne)
    · dsimp only
      rw [upd_self, getD_set_self _ _ _ hok]
    · dsimp only
      rw [upd_self, getD_set_self _ _ _ hok]
    · dsimp only
      rw [upd_self, getD_set_self _ _ _ hok]
    · dsimp only
      rw [upd_self, getD_set_self _ _ _ hok]
    · dsimp only
      rw [upd_self, getD_set_self _ _ _ hok]
  · intro s c taskId newContent hok h
    exact updateTask_invalid s c taskId newContent hok h

/-- C9 witness: updating the single task of the concrete one-task state
with empty content fails with InvalidContent. -/
theorem C9_witness :
    updateTask oneTaskState 0 0 "" = .error .InvalidContent :=
  C9_updateTask_frame.2 oneTaskState 0 0 "" (by decide) (Or.inl (by decide))

/-- C10: whenever an owner's maintained count is 0, every deleteTask call
by that owner fails — with TaskNotFound (index bounds), AlreadyDeleted
(empty slot), or the checked-arithmetic underflow Panic at the decrement
(live slot, reachable after an updateTask resurrection) — and in every
case the state is unchanged, so the count never underflows below zero. -/
theorem C10_count_no_underflow :
    ∀ s c taskId, s.taskCount c = 0 →
      (deleteTask s c taskId = .error .TaskNotFound ∨
       deleteTask s c taskId = .error .AlreadyDeleted ∨
       deleteTask s c taskId = .error .Panic) ∧
      step s (c, .delete taskId) = s := by
  intro s c taskId hcnt
  by_cases hok : taskId < (s.userTasks c).length
  · by_cases hdd : byteLen ((s.userTasks c).getD taskId defaultTask).content = 0
    · have h := deleteTask_already s c taskId hok hdd
      exact ⟨Or.inr (Or.inl h), step_err (m := (c, Op.delete taskId)) h⟩
    · have h := deleteTask_panic s c taskId hok hdd hcnt
      exact ⟨Or.inr (Or.inr h), step_err (m := (c, Op.delete taskId)) h⟩
  · have h := deleteTask_nf s c taskId hok
    exact ⟨Or.inl h, step_err (m := (c, Op.delete taskId)) h⟩

/-- C10 witness: in the reachable resurrected state the count is 0 with a
live in-range slot; the delete fails (through the Panic arm) and the state
is unchanged. -/
theorem C10_witness :
    (deleteTask resurrectState 0 0 = .error .TaskNotFound ∨
     deleteTask resurrectState 0 0 = .error .AlreadyDeleted ∨
     deleteTask resurrectState 0 0 = .error .Panic) ∧
      step resurrectState (0, Op.delete 0) = resurrectState :=
  C10_count_no_underflow resurrectState 0 0 (by decide)

end TodoListC
